import Mathlib

/-!
# Verification of the musicquiz session protocol

Shallow embedding of the host (`src/server/src/main.rs`) and listener
(`src/client/src/main.rs`) of the musicquiz application: the framed binary
wire format, the broadcast-and-prune client registry, and the two session
state machines.  Byte streams are modelled as lists of naturals below 256;
TCP writes that may fail are modelled by per-client success flags; fallible
reads return `Option`.
-/

namespace Musicquiz

/-- Wire commands.  Both `server/src/main.rs` and `client/src/main.rs`
declare this enumeration (`Command`) with the same five variants. -/
inductive Command where
  | transfer
  | play
  | pause
  | repeat
  | reveal
deriving DecidableEq, Repr

/-- The numeric tag written for each command by the host
(`send_command`, server main.rs lines 439-445). -/
def commandTag : Command → Nat
  | .play => 1
  | .transfer => 2
  | .pause => 3
  | .repeat => 4
  | .reveal => 5

/-- A byte stream: a list of byte values.  Reads consume from the front. -/
abbrev ByteStream := List Nat

/-- Big-endian encoding of a 64-bit length, as produced by Rust's
`u64::to_be_bytes` / `usize::to_be_bytes` on the 8-byte length prefixes. -/
def u64_to_be_bytes (n : Nat) : List Nat :=
  [n / 2 ^ 56 % 256, n / 2 ^ 48 % 256, n / 2 ^ 40 % 256, n / 2 ^ 32 % 256,
   n / 2 ^ 24 % 256, n / 2 ^ 16 % 256, n / 2 ^ 8 % 256, n % 256]

/-- Big-endian decoding of a length prefix, as done by
`u64::from_be_bytes` in `read_data` / `read_nickname` / `read_title_grading`. -/
def u64_from_be_bytes (bs : List Nat) : Nat :=
  bs.foldl (fun acc b => acc * 256 + b) 0

/-- Rust `Read::read_exact` on a byte stream: succeeds iff at least `k` bytes are
available, returning the bytes read and the remaining stream. -/
def read_exact (k : Nat) (s : ByteStream) : Option (List Nat × ByteStream) :=
  if k ≤ s.length then some (s.take k, s.drop k) else none

/-- The byte sequence `stream_file` (server main.rs lines 587-600) writes for
a file whose content is `bytes`: the 8-byte big-endian size followed by the
content.  (`stream_title_grading` frames its encoded record the same way;
the file read itself is an external collaborator, so the content is a
parameter here.) -/
def stream_file (bytes : List Nat) : ByteStream :=
  u64_to_be_bytes bytes.length ++ bytes

/-- Function `read_data` (client main.rs lines 460-472): read the 8-byte big-endian
length prefix, then exactly that many bytes; returns the blob and the rest
of the stream, or `none` when the stream ends early. -/
def read_data (s : ByteStream) : Option (List Nat × ByteStream) :=
  match read_exact 8 s with
  | none => none
  | some (pre, rest) => read_exact (u64_from_be_bytes pre) rest

/-- The tag-byte decoding inside `read_command`
(client main.rs lines 447-457): bytes 1-5 map to commands, anything else is
the `Invalid Command` error. -/
def command_from_byte (b : Nat) : Option Command :=
  match b with
  | 1 => some .play
  | 2 => some .transfer
  | 3 => some .pause
  | 4 => some .repeat
  | 5 => some .reveal
  | _ => none

/-- Function `read_command` (client main.rs lines 441-458): read exactly one byte and
decode it; `none` models both the end-of-stream error and the
`Invalid Command` error. -/
def read_command (s : ByteStream) : Option (Command × ByteStream) :=
  match s with
  | [] => none
  | b :: rest => (command_from_byte b).map (fun c => (c, rest))

/-- A registered listener connection (`Client`, server main.rs lines 164-168).
The TCP stream is modelled by its failure behaviour during one broadcast:
whether the one-byte tag write (`write_all(&bytes)`) succeeds, and whether
the payload streaming (`stream_file` / `stream_title_grading`) succeeds. -/
structure Client where
  nickname : String
  tagWriteOk : Bool
  payloadWriteOk : Bool
deriving DecidableEq, Repr

/-- The `keep` flag computed by the `retain_mut` closure of `send_command`
(server main.rs lines 449-475): tag write first; only if it succeeded and
the tag is Transfer (2) or Reveal (5), the payload write is attempted too. -/
def clientKeep (cmd : Command) (c : Client) : Bool :=
  let keep := c.tagWriteOk
  if keep && (commandTag cmd == 2) then keep && c.payloadWriteOk
  else if keep && (commandTag cmd == 5) then keep && c.payloadWriteOk
  else keep

/-- The full byte frame a healthy client receives for one broadcast: the tag
byte, then for Transfer/Reveal the length-prefixed payload blob. -/
def frame (cmd : Command) (payload : List Nat) : List Nat :=
  commandTag cmd ::
    (if commandTag cmd == 2 || commandTag cmd == 5 then stream_file payload else [])

/-- Function `send_command` (server main.rs lines 438-478): walk the registry in
order with `retain_mut`; per client compute `keep` as the closure does, keep
exactly the clients whose writes all succeeded.  Returns the pruned registry
and the deliveries (which client received which full frame), in registry
order. -/
def send_command (cmd : Command) (payload : List Nat) :
    List Client → List Client × List (Client × List Nat)
  | [] => ([], [])
  | c :: rest =>
    let res := send_command cmd payload rest
    if clientKeep cmd c then (c :: res.1, (c, frame cmd payload) :: res.2)
    else res


/-- Struct `Grading` (server main.rs lines 151-155): one optional grade per field,
both unset at the start of each song. -/
structure Grading where
  interpret : Option Bool
  title : Option Bool
deriving DecidableEq, Repr

/-- Struct `TitleInfo` (server main.rs lines 55-59): one song list entry. -/
structure TitleInfo where
  title : String
  interpret : String
deriving DecidableEq, Repr

/-- Struct `TransferTitleGrading` (server main.rs lines 602-608, mirrored by the
client's `TitleGrading` struct, client main.rs lines 135-141): the structured
Reveal payload record. -/
structure TransferTitleGrading where
  title : String
  interpret : String
  title_grading : Bool
  interpret_grading : Bool
deriving DecidableEq, Repr

namespace Host

/-- The host `App` state (server main.rs lines 224-235).  The terminal and
the event channel are external; the protocol-relevant fields are kept. -/
structure App where
  title : Nat
  exit : Bool
  playing : Bool
  transfered : Bool
  handles : List Client
  titles : List TitleInfo
  current_grading : Grading
  grading_history : List Grading
deriving DecidableEq, Repr

/-- State effect of one successful `send_command` call: the registry is
pruned to the clients whose writes succeeded (the delivery trace is covered
by `send_command` itself; pruning does not depend on the payload bytes). -/
def hostSend (cmd : Command) (payload : List Nat) (st : App) : App :=
  { st with handles := (send_command cmd payload st.handles).1 }

/-- Method `App::send_command` as seen by its callers (server main.rs lines
438-478): it returns `Result<(), _>`, but the body absorbs every per-handle
write failure inside the `retain_mut` closure and contains no early return,
ending in `Ok(())`. -/
def app_send_command (cmd : Command) (payload : List Nat) (st : App) :
    Except String App :=
  Except.ok (hostSend cmd payload st)

/-- Method `App::play` (server main.rs lines 362-372).  The `Err` branch models the
code's `self.exit = true` reaction to a failed broadcast. -/
def play (st : App) : App × List Command :=
  if !st.playing && st.transfered then
    let st1 := { st with playing := true }
    match app_send_command .play [] st1 with
    | .ok st2 => (st2, [.play])
    | .error _ => ({ st1 with exit := true }, [.play])
  else (st, [])

/-- Method `App::pause` (server main.rs lines 411-421). -/
def pause (st : App) : App × List Command :=
  if st.playing && st.transfered then
    let st1 := { st with playing := false }
    match app_send_command .pause [] st1 with
    | .ok st2 => (st2, [.pause])
    | .error _ => ({ st1 with exit := true }, [.pause])
  else (st, [])

/-- Method `App::repeat` (server main.rs lines 400-410). -/
def repeat_cmd (st : App) : App × List Command :=
  if st.transfered then
    let st1 := { st with playing := false }
    match app_send_command .repeat [] st1 with
    | .ok st2 => (st2, [.repeat])
    | .error _ => ({ st1 with exit := true }, [.repeat])
  else (st, [])

/-- Method `App::reset_grading` (server main.rs lines 422-427). -/
def reset_grading (st : App) : App :=
  { st with current_grading := { title := none, interpret := none } }

/-- Method `App::grade_title` (server main.rs lines 428-430). -/
def grade_title (grade : Bool) (st : App) : App :=
  { st with current_grading := { st.current_grading with title := some grade } }

/-- Method `App::grade_interpret` (server main.rs lines 431-433). -/
def grade_interpret (grade : Bool) (st : App) : App :=
  { st with current_grading := { st.current_grading with interpret := some grade } }

/-- The `KeyCode::Char('t')` handler (server main.rs lines 331-336): if not
yet transferred, set `transfered = true` and broadcast Transfer with the
current song's bytes (read from the external file collaborator, here a
parameter). -/
def initiate_transfer (payload : List Nat) (st : App) : App × List Command :=
  if !st.transfered then
    let st1 := { st with transfered := true }
    (hostSend .transfer payload st1, [.transfer])
  else (st, [])

/-- The record `stream_title_grading` builds and serializes (server main.rs
lines 615-620): grading fields via `unwrap_or(false)`. -/
def mk_transfer_title_grading (grading : Grading) (title : TitleInfo) :
    TransferTitleGrading :=
  { title := title.title
    interpret := title.interpret
    title_grading := grading.title.getD false
    interpret_grading := grading.interpret.getD false }

/-- Result of one `App::next` call: the state, the commands broadcast during
the call (in order), and the Reveal payload record if one was sent. -/
structure NextResult where
  state : App
  broadcasts : List Command
  revealed : Option TransferTitleGrading
deriving Repr

/-- Method `App::next` (server main.rs lines 373-399): broadcast Pause and set
`playing = false` unconditionally; then, only when both grading fields are
set: push the grading to the history, broadcast Reveal with the structured
record, reset the grading, and if not on the last index set
`transfered = false` and increment the index.  (`send_command`'s `?` never
fires: the call always returns `Ok`, see `app_send_command`.) -/
def next (st : App) : NextResult :=
  let st1 := { hostSend .pause [] st with playing := false }
  if st1.current_grading.title.isSome && st1.current_grading.interpret.isSome then
    let revealed := mk_transfer_title_grading st1.current_grading
      (st1.titles.getD st1.title ⟨"", ""⟩)
    let st2 := { st1 with grading_history := st1.grading_history ++ [st1.current_grading] }
    let st3 := hostSend .reveal [] st2
    let st4 := reset_grading st3
    let st5 :=
      if st4.title < st4.titles.length - 1 then
        { st4 with transfered := false, title := st4.title + 1 }
      else st4
    ⟨st5, [.pause, .reveal], some revealed⟩
  else
    ⟨st1, [.pause], none⟩

/-- One keyboard intent of the host dispatch loop (`match_key_event`,
server main.rs lines 323-361), plus the acceptor's registration push
(server main.rs line 542), which is the only other mutation of host state. -/
inductive HostOp where
  | playKey
  | pauseKey
  | repeatKey
  | transferKey (payload : List Nat)
  | gradeTitleKey (g : Bool)
  | gradeInterpretKey (g : Bool)
  | nextKey
  | registerClient (c : Client)
deriving Repr

/-- One step of the host state machine. -/
def hostStep (st : App) (op : HostOp) : App :=
  match op with
  | .playKey => (play st).1
  | .pauseKey => (pause st).1
  | .repeatKey => (repeat_cmd st).1
  | .transferKey payload => (initiate_transfer payload st).1
  | .gradeTitleKey g => grade_title g st
  | .gradeInterpretKey g => grade_interpret g st
  | .nextKey => (next st).state
  | .registerClient c => { st with handles := st.handles ++ [c] }

/-- The initial host state built in `main` (server main.rs lines 566-579):
index 0, not playing, not transferred, empty registry and history, grading
fully unset. -/
def initialApp (titles : List TitleInfo) : App :=
  { title := 0
    exit := false
    playing := false
    transfered := false
    handles := []
    titles := titles
    current_grading := { title := none, interpret := none }
    grading_history := [] }

end Host

namespace Listener

/-- Enum `AppState` (client main.rs lines 39-45). -/
inductive AppState where
  | enterNickname
  | disconnected
  | paused
  | playing
  | revealing
deriving DecidableEq, Repr

/-- The listener `App` state (client main.rs lines 60-72).  The audio sink
and volume are external collaborators; `hasStream` models whether the
`stream` thread join-handle is `Some`. -/
structure App where
  connection_string : String
  nickname : String
  state : AppState
  hasStream : Bool
  current_song : Option (List Nat)
  current_title_grading : Option TransferTitleGrading
  exit : Bool
deriving DecidableEq, Repr

/-- The protocol-side events of the listener's `AppEvent`
(client main.rs lines 31-37); keyboard (`CrossTerm`) events are local input
handling and do not enter the claims. -/
inductive AppEvent where
  | command (cmd : Command)
  | songData (song : List Nat)
  | titleGrading (tg : TransferTitleGrading)
  | disconnected
deriving Repr

/-- Method `App::append_song` (client main.rs lines 360-367): the sink operations
(stop, decode, append, pause) are the external audio collaborator; the state
effect is `state = Paused`. -/
def append_song (_song : List Nat) (st : App) : App :=
  { st with state := .paused }

/-- Method `App::play` (client main.rs lines 369-372). -/
def play (st : App) : App :=
  { st with state := .playing }

/-- Method `App::pause` (client main.rs lines 374-377). -/
def pause (st : App) : App :=
  { st with state := .paused }

/-- Method `App::clear` (client main.rs lines 379-382): `sink.clear()` is external;
the state effect is dropping the cached song.  Note: `current_title_grading`
is not touched here. -/
def clear (st : App) : App :=
  { st with current_song := none }

/-- The event dispatch of `App::handle_events` (client main.rs lines
214-261) restricted to protocol events: commands act on playback state;
`SongData` caches and enqueues the song; `TitleGrading` stores the reveal
and enters `Revealing`; `Disconnected` joins the reader thread, calls
`clear`, and forces `Disconnected`. -/
def handle_event (st : App) : AppEvent → App
  | .command c =>
    match c with
    | .play => play st
    | .transfer => st
    | .pause => pause st
    | .repeat =>
      match st.current_song with
      | some song => append_song song st
      | none => st
    | .reveal => st
  | .songData song => append_song song { st with current_song := some song }
  | .titleGrading tg => { st with current_title_grading := some tg, state := .revealing }
  | .disconnected =>
    { clear { st with hasStream := false } with state := .disconnected }

/-- Method `App::stream_handler` (client main.rs lines 331-349): how one wire
command is turned into the event the dispatch thread receives — `Transfer`
carries the blob payload as `SongData`, `Reveal` carries the parsed record
as `TitleGrading`, the rest arrive as plain commands. -/
def wire_event (cmd : Command) (song : List Nat) (tg : TransferTitleGrading) :
    AppEvent :=
  match cmd with
  | .transfer => .songData song
  | .reveal => .titleGrading tg
  | c => .command c

end Listener

theorem u64_be_roundtrip (n : Nat) (h : n < 2 ^ 64) :
    u64_from_be_bytes (u64_to_be_bytes n) = n := by
  simp only [u64_to_be_bytes, u64_from_be_bytes, List.foldl]
  omega

theorem u64_to_be_bytes_length (n : Nat) : (u64_to_be_bytes n).length = 8 := rfl

/-- C3: writing any byte sequence as a blob (8-byte big-endian length prefix
followed by the bytes, as `stream_file` and `stream_title_grading` do) and
reading it back with `read_data` yields the original sequence exactly, with
the rest of the stream untouched.  The length hypothesis reflects that the
prefix is a 64-bit field (`u64`/`usize`). -/
theorem stream_file_read_data_roundtrip (bytes rest : List Nat)
    (h : bytes.length < 2 ^ 64) :
    read_data (stream_file bytes ++ rest) = some (bytes, rest) := by
  have hlen : (u64_to_be_bytes bytes.length).length = 8 := rfl
  have htake : (stream_file bytes ++ rest).take 8 = u64_to_be_bytes bytes.length := by
    rw [stream_file, List.append_assoc]
    exact List.take_left' hlen
  have hdrop : (stream_file bytes ++ rest).drop 8 = bytes ++ rest := by
    rw [stream_file, List.append_assoc]
    exact List.drop_left' hlen
  have hge : 8 ≤ (stream_file bytes ++ rest).length := by
    simp [stream_file, u64_to_be_bytes]
  rw [read_data, read_exact, if_pos hge, htake, hdrop]
  show read_exact (u64_from_be_bytes (u64_to_be_bytes bytes.length))
      (bytes ++ rest) = some (bytes, rest)
  rw [u64_be_roundtrip bytes.length h, read_exact,
    if_pos (by simp), List.take_left, List.drop_left]

/-- C3 witness at a concrete input: the blob `[7, 13]` round-trips in front
of a leftover byte `99`. -/
theorem stream_file_read_data_roundtrip_witness :
    read_data (stream_file [7, 13] ++ [99]) = some ([7, 13], [99]) :=
  stream_file_read_data_roundtrip [7, 13] [99] (by decide)

/-- C4: the host's tag encoding (Play=1, Transfer=2, Pause=3, Repeat=4,
Reveal=5) round-trips through the listener's `read_command` for every
command, and every tag byte outside 1..5 makes `read_command` fail. -/
theorem command_tag_roundtrip (cmd : Command) (b : Nat) (rest rest' : ByteStream) :
    read_command (commandTag cmd :: rest) = some (cmd, rest) ∧
    (¬ (1 ≤ b ∧ b ≤ 5) → read_command (b :: rest') = none) := by
  constructor
  · cases cmd <;> rfl
  · intro hb
    match b, hb with
    | 0, _ => rfl
    | 1, hb => exact absurd ⟨by omega, by omega⟩ hb
    | 2, hb => exact absurd ⟨by omega, by omega⟩ hb
    | 3, hb => exact absurd ⟨by omega, by omega⟩ hb
    | 4, hb => exact absurd ⟨by omega, by omega⟩ hb
    | 5, hb => exact absurd ⟨by omega, by omega⟩ hb
    | n + 6, _ => rfl

/-- C4 witness: tag byte of `Pause` round-trips concretely, and the invalid
byte 9 is rejected. -/
theorem command_tag_roundtrip_witness :
    read_command (commandTag Command.pause :: [1]) = some (Command.pause, [1]) ∧
    read_command (9 :: [1]) = none :=
  ⟨(command_tag_roundtrip Command.pause 9 [1] [1]).1,
   (command_tag_roundtrip Command.pause 9 [1] [1]).2 (by decide)⟩

theorem send_command_fst (cmd : Command) (payload : List Nat) (registry : List Client) :
    (send_command cmd payload registry).1 = registry.filter (clientKeep cmd) := by
  induction registry with
  | nil => rfl
  | cons c rest ih =>
    rw [send_command, List.filter_cons]
    by_cases hc : clientKeep cmd c
    · rw [if_pos hc, if_pos hc, ih]
    · rw [if_neg hc, if_neg (by simp [hc]), ih]

theorem send_command_snd (cmd : Command) (payload : List Nat) (registry : List Client) :
    (send_command cmd payload registry).2 =
      (registry.filter (clientKeep cmd)).map (fun c => (c, frame cmd payload)) := by
  induction registry with
  | nil => rfl
  | cons c rest ih =>
    rw [send_command, List.filter_cons]
    by_cases hc : clientKeep cmd c
    · rw [if_pos hc, if_pos hc, List.map_cons, ih]
    · rw [if_neg hc, if_neg (by simp [hc]), ih]

/-- C2: `send_command` delivers the command frame (tag, plus the framed
payload for Transfer/Reveal) to the registry in order; each client whose
writes fail is removed and each whose writes succeed is kept, so the pruned
registry is exactly the filter of the original (the succeeding clients in
their original relative order), the deliveries are exactly the kept clients
each paired with the full frame, and a failing client is simply skipped —
its presence never changes what the remaining clients receive. -/
theorem send_command_broadcast_prune (cmd : Command) (payload : List Nat)
    (registry : List Client) (c : Client) :
    (send_command cmd payload registry).1 = registry.filter (clientKeep cmd) ∧
    (send_command cmd payload registry).2 =
      (registry.filter (clientKeep cmd)).map (fun cl => (cl, frame cmd payload)) ∧
    (clientKeep cmd c = false →
      send_command cmd payload (c :: registry) = send_command cmd payload registry) ∧
    (clientKeep cmd c = true →
      send_command cmd payload (c :: registry) =
        (c :: (send_command cmd payload registry).1,
         (c, frame cmd payload) :: (send_command cmd payload registry).2)) := by
  refine ⟨send_command_fst cmd payload registry,
          send_command_snd cmd payload registry, ?_, ?_⟩
  · intro hfail
    rw [send_command, if_neg (by simp [hfail])]
  · intro hok
    rw [send_command, if_pos hok]

/-- C2 witness: three clients, the middle one failing its payload write on a
Transfer; the two healthy clients receive the full frame and the registry
keeps exactly them, in order. -/
theorem send_command_broadcast_prune_witness :
    (send_command Command.transfer [10, 20]
        [⟨"a", true, true⟩, ⟨"b", true, false⟩, ⟨"c", true, true⟩]).1 =
      [⟨"a", true, true⟩, ⟨"c", true, true⟩] ∧
    (send_command Command.transfer [10, 20]
        [⟨"a", true, true⟩, ⟨"b", true, false⟩, ⟨"c", true, true⟩]).2 =
      [(⟨"a", true, true⟩, frame Command.transfer [10, 20]),
       (⟨"c", true, true⟩, frame Command.transfer [10, 20])] ∧
    send_command Command.transfer [10, 20]
        (⟨"b", true, false⟩ :: [⟨"c", true, true⟩]) =
      send_command Command.transfer [10, 20] [⟨"c", true, true⟩] ∧
    send_command Command.transfer [10, 20]
        (⟨"a", true, true⟩ :: [⟨"c", true, true⟩]) =
      (⟨"a", true, true⟩ :: (send_command Command.transfer [10, 20] [⟨"c", true, true⟩]).1,
       (⟨"a", true, true⟩, frame Command.transfer [10, 20]) ::
         (send_command Command.transfer [10, 20] [⟨"c", true, true⟩]).2) := by
  have h1 := send_command_broadcast_prune Command.transfer [10, 20]
    [⟨"a", true, true⟩, ⟨"b", true, false⟩, ⟨"c", true, true⟩] ⟨"a", true, true⟩
  have h2 := send_command_broadcast_prune Command.transfer [10, 20]
    [⟨"c", true, true⟩] ⟨"b", true, false⟩
  have h3 := send_command_broadcast_prune Command.transfer [10, 20]
    [⟨"c", true, true⟩] ⟨"a", true, true⟩
  exact ⟨by rw [h1.1]; rfl, by rw [h1.2.1]; rfl,
         h2.2.2.1 (by rfl), h3.2.2.2 (by rfl)⟩
namespace Host

theorem next_state_playing (st : App) : (next st).state.playing = false := by
  simp only [next]
  split
  · split <;> rfl
  · rfl

/-- C10: the host's `send_command` returns success for every command and
every registry content (per-handle failures are absorbed by pruning), so the
error branches of `play`, `pause` and `repeat` that would set the exit flag
are unreachable: none of the three ever changes `exit`. -/
theorem send_command_infallible (cmd : Command) (payload : List Nat) (st : App) :
    app_send_command cmd payload st = Except.ok (hostSend cmd payload st) ∧
    (play st).1.exit = st.exit ∧
    (pause st).1.exit = st.exit ∧
    (repeat_cmd st).1.exit = st.exit := by
  refine ⟨rfl, ?_, ?_, ?_⟩ <;>
  · obtain ⟨t, e, p, tr, hs, ts, g, gh⟩ := st
    cases p <;> cases tr <;> rfl

theorem hostStep_preserves_inv (st : App) (op : HostOp)
    (h : (!st.playing || st.transfered) = true) :
    (!(hostStep st op).playing || (hostStep st op).transfered) = true := by
  cases op with
  | playKey =>
    obtain ⟨t, e, p, tr, hs, ts, g, gh⟩ := st
    cases p <;> cases tr <;> simp_all [hostStep, play, app_send_command, hostSend]
  | pauseKey =>
    obtain ⟨t, e, p, tr, hs, ts, g, gh⟩ := st
    cases p <;> cases tr <;> simp_all [hostStep, pause, app_send_command, hostSend]
  | repeatKey =>
    obtain ⟨t, e, p, tr, hs, ts, g, gh⟩ := st
    cases p <;> cases tr <;> simp_all [hostStep, repeat_cmd, app_send_command, hostSend]
  | transferKey payload =>
    obtain ⟨t, e, p, tr, hs, ts, g, gh⟩ := st
    cases p <;> cases tr <;> simp_all [hostStep, initiate_transfer, hostSend]
  | gradeTitleKey gr => simp_all [hostStep, grade_title]
  | gradeInterpretKey gr => simp_all [hostStep, grade_interpret]
  | nextKey => simp [hostStep, next_state_playing]
  | registerClient c => simp_all [hostStep]

theorem foldl_hostStep_inv (ops : List HostOp) :
    ∀ st : App, (!st.playing || st.transfered) = true →
      (!(ops.foldl hostStep st).playing || (ops.foldl hostStep st).transfered) = true := by
  induction ops with
  | nil => exact fun st h => h
  | cons op rest ih =>
    exact fun st h => ih (hostStep st op) (hostStep_preserves_inv st op h)

/-- C5: from the initial host state (`playing = false`, `transfered = false`)
every sequence of host operations (play, pause, repeat, transfer, the two
grading keys, advance, and client registration) keeps the invariant
"playing implies transferred", stated as the boolean
`!playing || transfered`. -/
theorem reachable_playing_implies_transfered (titles : List TitleInfo)
    (ops : List HostOp) :
    (!(ops.foldl hostStep (initialApp titles)).playing
      || (ops.foldl hostStep (initialApp titles)).transfered) = true :=
  foldl_hostStep_inv ops (initialApp titles) rfl

/-- C6: `play` is a no-op (state unchanged, nothing broadcast) unless
`playing` is false and `transfered` is true, in which case it sets
`playing = true` and broadcasts Play; `pause` is a no-op unless `playing`
and `transfered` are both true, in which case it sets `playing = false` and
broadcasts Pause; `repeat` is a no-op unless `transfered` is true, in which
case it sets `playing = false` and broadcasts Repeat. -/
theorem play_pause_repeat_guards (st : App) :
    (¬ (st.playing = false ∧ st.transfered = true) → play st = (st, [])) ∧
    ((st.playing = false ∧ st.transfered = true) →
      (play st).1.playing = true ∧ (play st).2 = [Command.play]) ∧
    (¬ (st.playing = true ∧ st.transfered = true) → pause st = (st, [])) ∧
    ((st.playing = true ∧ st.transfered = true) →
      (pause st).1.playing = false ∧ (pause st).2 = [Command.pause]) ∧
    (st.transfered = false → repeat_cmd st = (st, [])) ∧
    (st.transfered = true →
      (repeat_cmd st).1.playing = false ∧ (repeat_cmd st).2 = [Command.repeat]) := by
  obtain ⟨t, e, p, tr, hs, ts, g, gh⟩ := st
  cases p <;> cases tr <;>
    simp [play, pause, repeat_cmd, app_send_command, hostSend]

/-- C6 witness: concrete states exercising both sides of each guard. -/
theorem play_pause_repeat_guards_witness :
    (play
      ⟨0, false, false, true, [], [], ⟨none, none⟩, []⟩).1.playing = true ∧
    play ⟨0, false, true, false, [], [], ⟨none, none⟩, []⟩ =
      (⟨0, false, true, false, [], [], ⟨none, none⟩, []⟩, []) ∧
    pause ⟨0, false, true, false, [], [], ⟨none, none⟩, []⟩ =
      (⟨0, false, true, false, [], [], ⟨none, none⟩, []⟩, []) ∧
    (pause
      ⟨0, false, true, true, [], [], ⟨none, none⟩, []⟩).1.playing = false ∧
    repeat_cmd ⟨0, false, true, false, [], [], ⟨none, none⟩, []⟩ =
      (⟨0, false, true, false, [], [], ⟨none, none⟩, []⟩, []) ∧
    (repeat_cmd
      ⟨0, false, false, true, [], [], ⟨none, none⟩, []⟩).2 = [Command.repeat] := by
  refine ⟨((play_pause_repeat_guards _).2.1 ⟨rfl, rfl⟩).1,
          (play_pause_repeat_guards _).1 (by simp),
          (play_pause_repeat_guards _).2.2.1 (by simp),
          ((play_pause_repeat_guards _).2.2.2.1 ⟨rfl, rfl⟩).1,
          (play_pause_repeat_guards _).2.2.2.2.1 rfl,
          ((play_pause_repeat_guards _).2.2.2.2.2 rfl).2⟩

/-- C1: `next` broadcasts Pause first and clears `playing` unconditionally;
exactly when both grading fields are set it appends the grading to the
history, broadcasts Reveal, resets the grading, and — only when not on the
last index — clears `transfered` and increments the index; with any grading
field unset, index, grading, history and `transfered` are unchanged and only
Pause is broadcast. -/
theorem next_spec (st : App) :
    ((next st).broadcasts).head? = some Command.pause ∧
    (next st).state.playing = false ∧
    ((st.current_grading.title.isSome = true ∧
      st.current_grading.interpret.isSome = true) →
      (next st).state.grading_history = st.grading_history ++ [st.current_grading] ∧
      (next st).broadcasts = [Command.pause, Command.reveal] ∧
      (next st).state.current_grading = { title := none, interpret := none } ∧
      (st.title < st.titles.length - 1 →
        (next st).state.transfered = false ∧ (next st).state.title = st.title + 1) ∧
      (¬ st.title < st.titles.length - 1 →
        (next st).state.transfered = st.transfered ∧
        (next st).state.title = st.title)) ∧
    (¬ (st.current_grading.title.isSome = true ∧
        st.current_grading.interpret.isSome = true) →
      (next st).state.title = st.title ∧
      (next st).state.current_grading = st.current_grading ∧
      (next st).state.grading_history = st.grading_history ∧
      (next st).state.transfered = st.transfered ∧
      (next st).broadcasts = [Command.pause]) := by
  obtain ⟨t, e, p, tr, hs, ts, ⟨gi, gt⟩, gh⟩ := st
  by_cases hidx : t < ts.length - 1 <;>
    cases gt <;> cases gi <;>
      simp [next, hostSend, reset_grading, mk_transfer_title_grading, hidx]

/-- C1 witness: a fully graded state not on the last index advances; one on
the last index only reveals; an incompletely graded state is untouched. -/
theorem next_spec_witness :
    (next ⟨0, false, true, true, [], [⟨"t1", "i1"⟩, ⟨"t2", "i2"⟩],
      ⟨some false, some true⟩, []⟩).state.title = 1 ∧
    (next ⟨0, false, false, true, [], [⟨"t1", "i1"⟩],
      ⟨some true, some true⟩, []⟩).state.title = 0 ∧
    (next ⟨0, false, true, true, [], [⟨"t1", "i1"⟩],
      ⟨none, some true⟩, []⟩).state.transfered = true := by
  refine ⟨?_, ?_, ?_⟩
  · exact (((next_spec ⟨0, false, true, true, [], [⟨"t1", "i1"⟩, ⟨"t2", "i2"⟩],
      ⟨some false, some true⟩, []⟩).2.2.1 ⟨rfl, rfl⟩).2.2.2.1 (by decide)).2
  · exact (((next_spec ⟨0, false, false, true, [], [⟨"t1", "i1"⟩],
      ⟨some true, some true⟩, []⟩).2.2.1 ⟨rfl, rfl⟩).2.2.2.2 (by decide)).2
  · exact ((next_spec ⟨0, false, true, true, [], [⟨"t1", "i1"⟩],
      ⟨none, some true⟩, []⟩).2.2.2 (by simp)).2.2.2.1

/-- C9: the Reveal payload record carries the song's title and performer and
the two grading booleans, an unset grading field being sent as `false`
(`unwrap_or(false)`); and this is exactly the record `next` reveals for the
current index when both fields are set. -/
theorem reveal_payload_spec (g : Grading) (ti : TitleInfo) (st : App) :
    (mk_transfer_title_grading g ti).title = ti.title ∧
    (mk_transfer_title_grading g ti).interpret = ti.interpret ∧
    (mk_transfer_title_grading g ti).title_grading =
      (match g.title with | none => false | some b => b) ∧
    (mk_transfer_title_grading g ti).interpret_grading =
      (match g.interpret with | none => false | some b => b) ∧
    ((st.current_grading.title.isSome = true ∧
      st.current_grading.interpret.isSome = true) →
      (next st).revealed =
        some (mk_transfer_title_grading st.current_grading
          (st.titles.getD st.title ⟨"", ""⟩))) := by
  obtain ⟨gi, gt⟩ := g
  refine ⟨rfl, rfl, ?_, ?_, ?_⟩
  · cases gt <;> rfl
  · cases gi <;> rfl
  · obtain ⟨t, e, p, tr, hs, ts, ⟨gi', gt'⟩, gh⟩ := st
    cases gt' <;> cases gi' <;>
      simp [next, hostSend, reset_grading, mk_transfer_title_grading]

/-- C9 witness: a fully graded state reveals the record with its grading
booleans at the current index. -/
theorem reveal_payload_spec_witness :
    (next ⟨0, false, false, true, [], [⟨"song", "artist"⟩],
      ⟨some false, some true⟩, []⟩).revealed =
      some (mk_transfer_title_grading ⟨some false, some true⟩ ⟨"song", "artist"⟩) :=
  (reveal_payload_spec ⟨some false, some true⟩ ⟨"song", "artist"⟩
    ⟨0, false, false, true, [], [⟨"song", "artist"⟩],
      ⟨some false, some true⟩, []⟩).2.2.2.2 ⟨rfl, rfl⟩

end Host

namespace Listener

/-- C7 counterexample: handling `Disconnected` does not clear the stored
reveal state — `clear` (client main.rs lines 379-382) only drops the cached
song, so a stored record survives the disconnect. -/
theorem handle_disconnected_keeps_reveal :
    (handle_event
      ⟨"srv", "nick", .paused, true, some [1, 2], some ⟨"t", "i", true, false⟩, false⟩
      .disconnected).current_title_grading = some ⟨"t", "i", true, false⟩ ∧
    some (⟨"t", "i", true, false⟩ : TransferTitleGrading) ≠ none :=
  ⟨rfl, by simp⟩

/-- C7 (amended): handling a `Disconnected` event joins the reader thread
(the join-handle is taken), clears the cached song state, and sets the
listener state to `Disconnected`; the stored reveal state is left
unchanged. -/
theorem handle_disconnected_spec (st : App) :
    (handle_event st .disconnected).hasStream = false ∧
    (handle_event st .disconnected).current_song = none ∧
    (handle_event st .disconnected).state = AppState.disconnected ∧
    (handle_event st .disconnected).current_title_grading =
      st.current_title_grading :=
  ⟨rfl, rfl, rfl, rfl⟩

/-- C8 counterexample: in `Revealing` with no cached song, a received
`Repeat` command is ignored and the state stays `Revealing`. -/
theorem revealing_repeat_no_song_stays :
    (handle_event
      ⟨"srv", "nick", .revealing, true, none, some ⟨"t", "i", true, true⟩, false⟩
      (wire_event .repeat [] ⟨"", "", false, false⟩)).state =
      AppState.revealing := rfl

/-- C8 (amended): from `Revealing`, a received Play, Pause or Transfer
always moves to a non-`Revealing` state; a received Repeat does so exactly
when a song is cached (with no cached song the event leaves the state
unchanged, still `Revealing`); a further Reveal ends in `Revealing` again. -/
theorem revealing_transitions (st : App) (song : List Nat)
    (tg : TransferTitleGrading) (h : st.state = AppState.revealing) :
    (handle_event st (wire_event .play song tg)).state ≠ AppState.revealing ∧
    (handle_event st (wire_event .pause song tg)).state ≠ AppState.revealing ∧
    (handle_event st (wire_event .transfer song tg)).state ≠ AppState.revealing ∧
    (st.current_song.isSome = true →
      (handle_event st (wire_event .repeat song tg)).state ≠ AppState.revealing) ∧
    (st.current_song = none →
      (handle_event st (wire_event .repeat song tg)).state = AppState.revealing) ∧
    (handle_event st (wire_event .reveal song tg)).state = AppState.revealing := by
  refine ⟨?_, ?_, ?_, ?_, ?_, ?_⟩
  · simp [handle_event, wire_event, play]
  · simp [handle_event, wire_event, pause]
  · simp [handle_event, wire_event, append_song]
  · intro hs
    rcases hcur : st.current_song with _ | s
    · rw [hcur] at hs; simp at hs
    · simp [handle_event, wire_event, append_song, hcur]
  · intro hnone
    simp [handle_event, wire_event, hnone, h]
  · simp [handle_event, wire_event]

/-- C8 witness: concrete `Revealing` states with and without a cached
song. -/
theorem revealing_transitions_witness :
    (handle_event ⟨"s", "n", .revealing, true, some [1], none, false⟩
      (wire_event .repeat [] ⟨"", "", false, false⟩)).state ≠
      AppState.revealing ∧
    (handle_event ⟨"s", "n", .revealing, true, none, none, false⟩
      (wire_event .play [] ⟨"", "", false, false⟩)).state ≠
      AppState.revealing ∧
    (handle_event ⟨"s", "n", .revealing, true, none, none, false⟩
      (wire_event .repeat [] ⟨"", "", false, false⟩)).state =
      AppState.revealing :=
  ⟨(revealing_transitions ⟨"s", "n", .revealing, true, some [1], none, false⟩
      [] ⟨"", "", false, false⟩ rfl).2.2.2.1 rfl,
   (revealing_transitions ⟨"s", "n", .revealing, true, none, none, false⟩
      [] ⟨"", "", false, false⟩ rfl).1,
   (revealing_transitions ⟨"s", "n", .revealing, true, none, none, false⟩
      [] ⟨"", "", false, false⟩ rfl).2.2.2.2.1 rfl⟩

end Listener

end Musicquiz
